import Mathlib

/-!
# Verification of the stock-tech-fib worker core

Shallow embedding of the repository's core computations:

* `src/app/processor.py` — `calculate_fibonacci_levels`, the pure level
  calculator over OHLC bar data (Fibonacci retracements and extensions).
* `src/app/queue_sender.py` — `QueueSender`: RabbitMQ connection with bounded
  retry (`_connect_to_rabbitmq`), `send_message`, and `close`.

Python floats are modelled as exact rationals (`ℚ`); `None`/NaN as `Option`;
Python dictionaries (insertion ordered, string keys) as association lists
`List (String × ℚ)`; exceptions as `Except String`.
-/

namespace StockTechFib

/-! ## Rounding and label formatting

`round(x, 2)` in Python 3 rounds to the closest multiple of 10^(-2), breaking
ties toward the even multiple (the documented behaviour of builtin `round`).
`int(x)` truncates toward zero.  `f"{x:.3f}"` renders with exactly three
decimal places (rounding ties to even at the third decimal).
-/

/-- Round a rational to the nearest integer, ties to the even integer:
the model of Python 3 builtin `round(x)`. -/
def roundHalfEvenInt (q : ℚ) : ℤ :=
  if q - ⌊q⌋ < 1/2 then ⌊q⌋
  else if 1/2 < q - ⌊q⌋ then ⌊q⌋ + 1
  else if ⌊q⌋ % 2 = 0 then ⌊q⌋ else ⌊q⌋ + 1

/-- Model of Python `round(x, 2)`: round at the second decimal place,
ties to even. -/
def pyRound2 (q : ℚ) : ℚ :=
  (roundHalfEvenInt (q * 100) : ℚ) / 100

/-- Model of Python `int(x)`: truncation toward zero. -/
def pyInt (q : ℚ) : ℤ :=
  if 0 ≤ q then ⌊q⌋ else ⌈q⌉

/-- Left-pad a numeral string with zeros to three characters
(helper for the `.3f` format of nonnegative values below 10). -/
def pad3 (s : String) : String :=
  if s.length ≥ 3 then s
  else if s.length = 2 then "0" ++ s
  else if s.length = 1 then "00" ++ s
  else "000"

/-- Model of Python `f"{x:.3f}"` for nonnegative `x` (all extension ratios
are positive): three decimal places, ties to even at the third decimal. -/
def pyFormat3 (q : ℚ) : String :=
  let n : ℤ := roundHalfEvenInt (q * 1000)
  toString (n / 1000) ++ "." ++ pad3 (toString (n % 1000))

/-! ## processor.py — data model

`calculate_fibonacci_levels(data, method, swing_high, swing_low)` touches the
data frame only through `data.get("High", ...)` / `data.get("Low", ...)`,
`Series.max` / `Series.min`, `pd.notna` and `float(...)`, all inside a
`try/except Exception` that returns `{}` on any raised exception.

A data frame is modelled by its optional `High` and `Low` columns (cells are
`Option ℚ`, with `none` standing for NaN) plus a `malformed` flag standing
for a frame whose column aggregation / float conversion raises at runtime
(e.g. non-numeric object columns); such an exception is absorbed by the
`except` branch of the source.
-/

/-- A pandas column: list of cells, `none` = NaN. -/
def Column : Type := List (Option ℚ)

/-- The slice of a pandas DataFrame consumed by the processor. -/
structure DataFrame where
  high : Option (List (Option ℚ))
  low : Option (List (Option ℚ))
  /-- True for a frame whose column access / aggregation / float coercion
  raises (e.g. non-numeric object dtype); the source absorbs the exception. -/
  malformed : Bool

/-- `Series.max` with pandas default `skipna=True`: maximum of the non-NaN
cells, NaN (`none`) when the series is empty or all-NaN. -/
def seriesMax : List (Option ℚ) → Option ℚ
  | [] => none
  | none :: rest => seriesMax rest
  | some q :: rest =>
    match seriesMax rest with
    | none => some q
    | some m => some (max q m)

/-- `Series.min` with pandas default `skipna=True`. -/
def seriesMin : List (Option ℚ) → Option ℚ
  | [] => none
  | none :: rest => seriesMin rest
  | some q :: rest =>
    match seriesMin rest with
    | none => some q
    | some m => some (min q m)

/-- Derivation of one swing bound, mirroring lines 105–115 of processor.py:
when the override is present the data is never consulted; otherwise the
column (defaulted to an empty series) is aggregated with `extreme` and the
result passed through `float(...) if pd.notna(...) else None`.  A malformed
frame raises, modelled as `Except.error`. -/
def deriveBound (override : Option ℚ) (col : Option (List (Option ℚ)))
    (malformed : Bool) (extreme : List (Option ℚ) → Option ℚ) :
    Except String (Option ℚ) :=
  match override with
  | some v => .ok (some v)
  | none =>
    if malformed then .error "exception during swing derivation"
    else .ok (extreme (col.getD []))

/-- The fixed retracement ratios (`RETRACEMENT_LEVELS` in processor.py). -/
def RETRACEMENT_LEVELS : List ℚ := [236/1000, 382/1000, 5/10, 618/1000, 786/1000]

/-- The fixed extension ratios (`EXTENSION_LEVELS` in processor.py). -/
def EXTENSION_LEVELS : List ℚ := [1272/1000, 1618/1000, 2, 2618/1000]

/-- Retracement price before rounding: `swing_high - (swing_high - swing_low) * level`. -/
def retracementPrice (h l r : ℚ) : ℚ := h - (h - l) * r

/-- Extension price before rounding: `swing_high + (swing_high - swing_low) * (level - 1)`. -/
def extensionPrice (h l r : ℚ) : ℚ := h + (h - l) * (r - 1)

/-- Retracement label: `f"{int(level * 100)}%"`. -/
def retracementLabel (r : ℚ) : String := toString (pyInt (r * 100)) ++ "%"

/-- Extension label: `f"{level:.3f}x"`. -/
def extensionLabel (r : ℚ) : String := pyFormat3 r ++ "x"

/-- The body of `calculate_fibonacci_levels` (the `try` block): derive both
bounds, return `{}` if either is undefined, then build the level dictionary
for the requested method (`{}` on an unknown method). -/
def calcFibBody (data : DataFrame) (method : String)
    (swing_high swing_low : Option ℚ) : Except String (List (String × ℚ)) := do
  let sh ← deriveBound swing_high data.high data.malformed seriesMax
  let sl ← deriveBound swing_low data.low data.malformed seriesMin
  match sh, sl with
  | some h, some l =>
    if method = "retracement" then
      .ok (RETRACEMENT_LEVELS.map fun r =>
        (retracementLabel r, pyRound2 (retracementPrice h l r)))
    else if method = "extension" then
      .ok (EXTENSION_LEVELS.map fun r =>
        (extensionLabel r, pyRound2 (extensionPrice h l r)))
    else
      .ok []
  | _, _ => .ok []

/-- `calculate_fibonacci_levels`: the body wrapped in
`try: ... except Exception: return {}`. -/
def calculate_fibonacci_levels (data : DataFrame) (method : String)
    (swing_high swing_low : Option ℚ) : List (String × ℚ) :=
  match calcFibBody data method swing_high swing_low with
  | .ok levels => levels
  | .error _ => []

/-- An empty data frame (no columns), used for concrete instantiations. -/
def emptyFrame : DataFrame := ⟨none, none, false⟩

/-! ## queue_sender.py — connection retry, send, close

`QueueSender._connect_to_rabbitmq` loops `for attempt in range(1, retries+1)`
with `retries = 5`; each iteration either opens the connection and returns,
or logs a warning and sleeps 5 seconds; after the loop it raises
`ConnectionError`.  Whether a given attempt succeeds is an environment fact,
modelled by an oracle `succeeds : ℕ → Bool`.  The observable behaviour is a
trace: the attempt numbers tried, the sleeps performed, whether the routine
returned with an open connection, and whether it raised. -/

/-- `retries = 5` in `_connect_to_rabbitmq`. -/
def rabbitRetries : ℕ := 5

/-- `time.sleep(5)` after each failed attempt. -/
def rabbitRetryDelay : ℕ := 5

/-- Observable trace of `_connect_to_rabbitmq`. -/
structure ConnTrace where
  /-- Attempt numbers tried, in order. -/
  attempts : List ℕ
  /-- Sleep durations performed, in order (one after each failed attempt). -/
  sleeps : List ℕ
  /-- True when the routine returned with the connection open. -/
  connected : Bool
  /-- True when the routine raised `ConnectionError`. -/
  raised : Bool

/-- The retry loop body over the remaining attempt numbers. -/
def connectGo (succeeds : ℕ → Bool) : List ℕ → ConnTrace
  | [] => ⟨[], [], false, true⟩
  | a :: rest =>
    if succeeds a then ⟨[a], [], true, false⟩
    else
      let t := connectGo succeeds rest
      ⟨a :: t.attempts, rabbitRetryDelay :: t.sleeps, t.connected, t.raised⟩

/-- `_connect_to_rabbitmq`: the loop over attempts `1..retries`, raising
`ConnectionError` when every attempt fails. -/
def connect_to_rabbitmq (succeeds : ℕ → Bool) : ConnTrace :=
  connectGo succeeds (List.range' 1 rabbitRetries)

/-- `QueueSender.send_message`, lines 79–103: each backend branch performs the
underlying publish/send network call in a `try`, logs, and on exception logs
and re-raises (`raise`).  The outcome of the underlying call is a parameter
(`.ok ()` = call returned, `.error e` = call raised `e`); the function's own
result is `.ok ()` for a normal return and `.error e` for a propagated
exception.  A sender whose `queue_type` is neither `"rabbitmq"` nor `"sqs"`
falls through both branches and returns `None`. -/
def send_message (queue_type : String) (callOutcome : Except String Unit) :
    Except String Unit :=
  if queue_type = "rabbitmq" then
    match callOutcome with
    | .ok _ => .ok ()
    | .error e => .error e
  else if queue_type = "sqs" then
    match callOutcome with
    | .ok _ => .ok ()
    | .error e => .error e
  else
    .ok ()

/-- The slice of a pika connection observed by `close`: `is_open`, and
`Connection.close()` sets it to false. -/
structure Connection where
  is_open : Bool
deriving DecidableEq

/-- The mutable state of a `QueueSender` relevant to `close()`:
`self.connection`, which is `None` until `_connect_to_rabbitmq` assigns it. -/
structure SenderState where
  connection : Option Connection
deriving DecidableEq

/-- `QueueSender.close`, lines 105–109:
`if self.connection and self.connection.is_open: self.connection.close()`.
Total — no branch raises. -/
def close (s : SenderState) : SenderState :=
  match s.connection with
  | none => s
  | some c => if c.is_open then { s with connection := some { c with is_open := false } } else s

/-- Rounding at the 2nd decimal place with ties away from zero, as the spec
sentence describes the source behaviour; kept separate from `pyRound2` (the
model of the source's `round(price, 2)`) so the two can be compared. -/
def specRoundHalfAwayFromZero2 (q : ℚ) : ℚ :=
  ((if 0 ≤ q then ⌊q * 100 + 1/2⌋ else ⌈q * 100 - 1/2⌉ : ℤ) : ℚ) / 100

/-! ## Helper lemmas -/

/-- `roundHalfEvenInt` is within 1/2 of its argument, and lands on an even
integer whenever the argument is exactly halfway between two integers. -/
lemma roundHalfEvenInt_spec (q : ℚ) :
    |q - (roundHalfEvenInt q : ℚ)| ≤ 1/2 ∧
    (|q - (roundHalfEvenInt q : ℚ)| = 1/2 → 2 ∣ roundHalfEvenInt q) := by
  have h0 : (0:ℚ) ≤ q - ⌊q⌋ := sub_nonneg.2 (Int.floor_le q)
  have h1 : q - ⌊q⌋ < 1 := by
    have := Int.lt_floor_add_one q
    linarith
  unfold roundHalfEvenInt
  split_ifs with hlt hgt hev
  · constructor
    · rw [abs_of_nonneg h0]; linarith
    · intro habs
      rw [abs_of_nonneg h0] at habs
      exact absurd habs (by linarith)
  · constructor
    · rw [abs_of_nonpos (by push_cast; linarith)]
      push_cast
      linarith
    · intro habs
      rw [abs_of_nonpos (by push_cast; linarith)] at habs
      push_cast at habs
      exact absurd habs (by intro hc; linarith)
  · have hfr : q - ⌊q⌋ = 1/2 := le_antisymm (not_lt.1 hgt) (not_lt.1 hlt)
    constructor
    · rw [abs_of_nonneg h0]; linarith
    · intro _
      exact Int.dvd_of_emod_eq_zero hev
  · have hfr : q - ⌊q⌋ = 1/2 := le_antisymm (not_lt.1 hgt) (not_lt.1 hlt)
    constructor
    · rw [abs_of_nonpos (by push_cast; linarith)]
      push_cast
      linarith
    · intro _
      omega

/-- The stored price `pyRound2 q` is a multiple of 1/100 within 1/200 of the
exact value, and its numerator in hundredths is even at exact ties. -/
lemma pyRound2_spec (q : ℚ) :
    ∃ n : ℤ, pyRound2 q = (n : ℚ)/100 ∧ |q - pyRound2 q| ≤ 1/200 ∧
      (|q - pyRound2 q| = 1/200 → 2 ∣ n) := by
  obtain ⟨hle, hdvd⟩ := roundHalfEvenInt_spec (q * 100)
  refine ⟨roundHalfEvenInt (q * 100), rfl, ?_, ?_⟩
  · have hrw : q - pyRound2 q = (q * 100 - (roundHalfEvenInt (q * 100) : ℚ))/100 := by
      unfold pyRound2; ring
    rw [hrw, abs_div, abs_of_pos (by norm_num : (0:ℚ) < 100)]
    linarith [abs_nonneg (q * 100 - (roundHalfEvenInt (q * 100) : ℚ))]
  · intro habs
    have hrw : q - pyRound2 q = (q * 100 - (roundHalfEvenInt (q * 100) : ℚ))/100 := by
      unfold pyRound2; ring
    rw [hrw, abs_div, abs_of_pos (by norm_num : (0:ℚ) < 100)] at habs
    exact hdvd (by linarith)

lemma retracementLabel_236 : retracementLabel (236/1000) = "23%" := by
  norm_num [retracementLabel, pyInt]; decide

lemma retracementLabel_382 : retracementLabel (382/1000) = "38%" := by
  norm_num [retracementLabel, pyInt]; decide

lemma retracementLabel_500 : retracementLabel (5/10) = "50%" := by
  norm_num [retracementLabel, pyInt]; decide

lemma retracementLabel_618 : retracementLabel (618/1000) = "61%" := by
  norm_num [retracementLabel, pyInt]; decide

lemma retracementLabel_786 : retracementLabel (786/1000) = "78%" := by
  norm_num [retracementLabel, pyInt]; decide

lemma extensionLabel_1272 : extensionLabel (1272/1000) = "1.272x" := by
  norm_num [extensionLabel, pyFormat3, roundHalfEvenInt]; decide

lemma extensionLabel_1618 : extensionLabel (1618/1000) = "1.618x" := by
  norm_num [extensionLabel, pyFormat3, roundHalfEvenInt]; decide

lemma extensionLabel_2000 : extensionLabel 2 = "2.000x" := by
  norm_num [extensionLabel, pyFormat3, roundHalfEvenInt]; decide

lemma extensionLabel_2618 : extensionLabel (2618/1000) = "2.618x" := by
  norm_num [extensionLabel, pyFormat3, roundHalfEvenInt]; decide

/-- With both overrides supplied, the retracement branch is the map of the
label/rounded-price pair over the fixed ratio list. -/
lemma calc_retracement_eq (data : DataFrame) (h l : ℚ) :
    calculate_fibonacci_levels data "retracement" (some h) (some l) =
      RETRACEMENT_LEVELS.map
        (fun r => (retracementLabel r, pyRound2 (retracementPrice h l r))) := rfl

/-- With both overrides supplied, the extension branch is the map of the
label/rounded-price pair over the fixed ratio list. -/
lemma calc_extension_eq (data : DataFrame) (h l : ℚ) :
    calculate_fibonacci_levels data "extension" (some h) (some l) =
      EXTENSION_LEVELS.map
        (fun r => (extensionLabel r, pyRound2 (extensionPrice h l r))) := rfl

/-- Fully explicit form of the retracement level set under overrides. -/
lemma calc_retracement_explicit (data : DataFrame) (h l : ℚ) :
    calculate_fibonacci_levels data "retracement" (some h) (some l) =
      [("23%", pyRound2 (retracementPrice h l (236/1000))),
       ("38%", pyRound2 (retracementPrice h l (382/1000))),
       ("50%", pyRound2 (retracementPrice h l (5/10))),
       ("61%", pyRound2 (retracementPrice h l (618/1000))),
       ("78%", pyRound2 (retracementPrice h l (786/1000)))] := by
  rw [calc_retracement_eq]
  simp [RETRACEMENT_LEVELS, retracementLabel_236, retracementLabel_382,
    retracementLabel_500, retracementLabel_618, retracementLabel_786]

/-- Fully explicit form of the extension level set under overrides. -/
lemma calc_extension_explicit (data : DataFrame) (h l : ℚ) :
    calculate_fibonacci_levels data "extension" (some h) (some l) =
      [("1.272x", pyRound2 (extensionPrice h l (1272/1000))),
       ("1.618x", pyRound2 (extensionPrice h l (1618/1000))),
       ("2.000x", pyRound2 (extensionPrice h l 2)),
       ("2.618x", pyRound2 (extensionPrice h l (2618/1000)))] := by
  rw [calc_extension_eq]
  simp [EXTENSION_LEVELS, extensionLabel_1272, extensionLabel_1618,
    extensionLabel_2000, extensionLabel_2618]

/-- Evaluation of the rounded retracement price for concrete inputs where the
exact price already has at most two decimals. -/
lemma pyRound2_of_den100 (n : ℤ) : pyRound2 ((n : ℚ)/100) = (n : ℚ)/100 := by
  have h100 : ((n : ℚ)/100) * 100 = (n : ℚ) := by
    field_simp
  have hfl : roundHalfEvenInt ((n : ℚ)) = n := by
    simp [roundHalfEvenInt, Int.floor_intCast]
  simp [pyRound2, h100, hfl]

/-! ## Claim theorems -/

/-- C1: with fully defined swing bounds, method `"retracement"` yields exactly
the five ratios 0.236, 0.382, 0.5, 0.618, 0.786, each mapping the label
obtained by truncating `ratio * 100` to an integer (plus `%`) to
`high - (high - low) * ratio` rounded to two decimals; at high 110 / low 90
the `"61%"` entry is 97.64. -/
theorem retracement_levels_spec :
    (∀ (data : DataFrame) (h l : ℚ),
      calculate_fibonacci_levels data "retracement" (some h) (some l) =
        [(toString (pyInt ((236/1000) * 100)) ++ "%", pyRound2 (retracementPrice h l (236/1000))),
         (toString (pyInt ((382/1000) * 100)) ++ "%", pyRound2 (retracementPrice h l (382/1000))),
         (toString (pyInt ((5/10) * 100)) ++ "%", pyRound2 (retracementPrice h l (5/10))),
         (toString (pyInt ((618/1000) * 100)) ++ "%", pyRound2 (retracementPrice h l (618/1000))),
         (toString (pyInt ((786/1000) * 100)) ++ "%", pyRound2 (retracementPrice h l (786/1000)))]) ∧
    List.lookup "61%"
      (calculate_fibonacci_levels emptyFrame "retracement" (some 110) (some 90)) =
      some (9764/100) := by
  constructor
  · intro data h l
    rw [calc_retracement_explicit]
    rw [show toString (pyInt ((236/1000 : ℚ) * 100)) ++ "%" = "23%" from retracementLabel_236,
        show toString (pyInt ((382/1000 : ℚ) * 100)) ++ "%" = "38%" from retracementLabel_382,
        show toString (pyInt (((5:ℚ)/10) * 100)) ++ "%" = "50%" from retracementLabel_500,
        show toString (pyInt ((618/1000 : ℚ) * 100)) ++ "%" = "61%" from retracementLabel_618,
        show toString (pyInt ((786/1000 : ℚ) * 100)) ++ "%" = "78%" from retracementLabel_786]
  · rw [calc_retracement_explicit]
    have he : retracementPrice 110 90 (618/1000) = ((9764 : ℤ) : ℚ)/100 := by
      norm_num [retracementPrice]
    rw [he, pyRound2_of_den100]
    norm_num [List.lookup]
    rfl

/-- C2: with fully defined swing bounds, method `"extension"` yields exactly
the four ratios 1.272, 1.618, 2.0, 2.618, each mapping the ratio formatted to
three decimal places plus `x` to `high + (high - low) * (ratio - 1)` rounded
to two decimals; at high 110 / low 90 the `"1.618x"` entry is 122.36. -/
theorem extension_levels_spec :
    (∀ (data : DataFrame) (h l : ℚ),
      calculate_fibonacci_levels data "extension" (some h) (some l) =
        [(pyFormat3 (1272/1000) ++ "x", pyRound2 (extensionPrice h l (1272/1000))),
         (pyFormat3 (1618/1000) ++ "x", pyRound2 (extensionPrice h l (1618/1000))),
         (pyFormat3 2 ++ "x", pyRound2 (extensionPrice h l 2)),
         (pyFormat3 (2618/1000) ++ "x", pyRound2 (extensionPrice h l (2618/1000)))]) ∧
    List.lookup "1.618x"
      (calculate_fibonacci_levels emptyFrame "extension" (some 110) (some 90)) =
      some (12236/100) := by
  constructor
  · intro data h l
    rw [calc_extension_explicit]
    rw [show pyFormat3 ((1272:ℚ)/1000) ++ "x" = "1.272x" from extensionLabel_1272,
        show pyFormat3 ((1618:ℚ)/1000) ++ "x" = "1.618x" from extensionLabel_1618,
        show pyFormat3 (2:ℚ) ++ "x" = "2.000x" from extensionLabel_2000,
        show pyFormat3 ((2618:ℚ)/1000) ++ "x" = "2.618x" from extensionLabel_2618]
  · rw [calc_extension_explicit]
    have he : extensionPrice 110 90 (1618/1000) = ((12236 : ℤ) : ℚ)/100 := by
      norm_num [extensionPrice]
    rw [he, pyRound2_of_den100]
    norm_num [List.lookup]
    rfl

/-- C10: when both swing overrides are supplied, the result depends only on
the overrides and the method — the bar data is never consulted. -/
theorem overrides_ignore_data (d1 d2 : DataFrame) (method : String) (h l : ℚ) :
    calculate_fibonacci_levels d1 method (some h) (some l) =
    calculate_fibonacci_levels d2 method (some h) (some l) := rfl

/-- C3 counterexample: with swing high 0.25 and swing low 0 the exact 50%
retracement price is 0.125, an exact tie at the third decimal; the code stores
0.12 (Python `round` breaks ties to even), while rounding half away from zero
would give 0.13. -/
theorem round_half_away_counterexample :
    retracementPrice (1/4) 0 (5/10) = 125/1000 ∧
    List.lookup "50%"
      (calculate_fibonacci_levels emptyFrame "retracement" (some (1/4)) (some 0)) =
      some (12/100) ∧
    specRoundHalfAwayFromZero2 (125/1000) = 13/100 ∧
    ((12:ℚ)/100 ≠ 13/100) := by
  refine ⟨by norm_num [retracementPrice], ?_, ?_, by norm_num⟩
  · rw [calc_retracement_explicit]
    have h50 : pyRound2 (retracementPrice (1/4) 0 (5/10)) = 12/100 := by
      norm_num [retracementPrice, pyRound2, roundHalfEvenInt]
    rw [h50]
    norm_num [List.lookup]
    rfl
  · norm_num [specRoundHalfAwayFromZero2]

/-- C3 (amended): every stored price is the exact level value rounded at the
2nd decimal place with ties rounded half to even (Python `round` semantics):
it is a multiple of 1/100 within 1/200 of the exact value, and at an exact
tie its numerator in hundredths is even — for both methods. -/
theorem prices_rounded_half_even (data : DataFrame) (h l : ℚ) :
    (∀ p ∈ calculate_fibonacci_levels data "retracement" (some h) (some l),
      ∃ r ∈ RETRACEMENT_LEVELS, p.2 = pyRound2 (retracementPrice h l r) ∧
        ∃ n : ℤ, p.2 = (n : ℚ)/100 ∧ |retracementPrice h l r - p.2| ≤ 1/200 ∧
          (|retracementPrice h l r - p.2| = 1/200 → 2 ∣ n)) ∧
    (∀ p ∈ calculate_fibonacci_levels data "extension" (some h) (some l),
      ∃ r ∈ EXTENSION_LEVELS, p.2 = pyRound2 (extensionPrice h l r) ∧
        ∃ n : ℤ, p.2 = (n : ℚ)/100 ∧ |extensionPrice h l r - p.2| ≤ 1/200 ∧
          (|extensionPrice h l r - p.2| = 1/200 → 2 ∣ n)) := by
  constructor
  · intro p hp
    rw [calc_retracement_eq] at hp
    simp only [List.mem_map] at hp
    obtain ⟨r, hr, rfl⟩ := hp
    exact ⟨r, hr, rfl, pyRound2_spec (retracementPrice h l r)⟩
  · intro p hp
    rw [calc_extension_eq] at hp
    simp only [List.mem_map] at hp
    obtain ⟨r, hr, rfl⟩ := hp
    exact ⟨r, hr, rfl, pyRound2_spec (extensionPrice h l r)⟩

theorem prices_rounded_half_even_witness :
    ∃ r ∈ RETRACEMENT_LEVELS,
      (("61%", (9764:ℚ)/100) : String × ℚ).2 = pyRound2 (retracementPrice 110 90 r) ∧
      ∃ n : ℤ, (("61%", (9764:ℚ)/100) : String × ℚ).2 = (n : ℚ)/100 ∧
        |retracementPrice 110 90 r - (("61%", (9764:ℚ)/100) : String × ℚ).2| ≤ 1/200 ∧
        (|retracementPrice 110 90 r - (("61%", (9764:ℚ)/100) : String × ℚ).2| = 1/200 → 2 ∣ n) := by
  have hmem : (("61%", (9764:ℚ)/100) : String × ℚ) ∈
      calculate_fibonacci_levels emptyFrame "retracement" (some 110) (some 90) := by
    rw [calc_retracement_explicit]
    have he : pyRound2 (retracementPrice 110 90 (618/1000)) = (9764:ℚ)/100 := by
      have hp : retracementPrice 110 90 (618/1000) = ((9764 : ℤ) : ℚ)/100 := by
        norm_num [retracementPrice]
      rw [hp, pyRound2_of_den100]
      norm_num
    rw [he]
    simp
  exact (prices_rounded_half_even emptyFrame 110 90).1 _ hmem

/-- C4 counterexample: at swing high 0.01 and swing low 0 (so high > low),
the stored `"23%"` retracement price is 0.01, equal to — not strictly below —
the swing high, because rounding moved the exact price 0.00764 up to 0.01. -/
theorem strict_bounds_counterexample :
    ((0:ℚ) < 1/100) ∧
    List.lookup "23%"
      (calculate_fibonacci_levels emptyFrame "retracement" (some (1/100)) (some 0)) =
      some (1/100) ∧
    ¬((1/100:ℚ) < 1/100) := by
  refine ⟨by norm_num, ?_, by norm_num⟩
  rw [calc_retracement_explicit]
  have h23 : pyRound2 (retracementPrice (1/100) 0 (236/1000)) = 1/100 := by
    norm_num [retracementPrice, pyRound2, roundHalfEvenInt]
  rw [h23]
  norm_num [List.lookup]

/-- C4 (amended): for swing bounds with high > low, the exact (pre-rounding)
prices are strictly bounded: every retracement price lies strictly between
low and high, and every extension price lies strictly above high.  (The
stored prices are these values rounded to two decimals, and the rounding can
move a price onto or past a bound, as the counterexample shows.) -/
theorem exact_prices_strictly_bounded (h l : ℚ) (hlt : l < h) :
    (∀ r ∈ RETRACEMENT_LEVELS,
      l < retracementPrice h l r ∧ retracementPrice h l r < h) ∧
    (∀ r ∈ EXTENSION_LEVELS, h < extensionPrice h l r) := by
  constructor
  · intro r hr
    simp only [RETRACEMENT_LEVELS, List.mem_cons, List.not_mem_nil, or_false] at hr
    rcases hr with rfl | rfl | rfl | rfl | rfl <;>
      constructor <;> (simp only [retracementPrice]; linarith)
  · intro r hr
    simp only [EXTENSION_LEVELS, List.mem_cons, List.not_mem_nil, or_false] at hr
    rcases hr with rfl | rfl | rfl | rfl <;>
      (simp only [extensionPrice]; linarith)

theorem exact_prices_strictly_bounded_witness :
    (1:ℚ) < retracementPrice 2 1 (236/1000) ∧ retracementPrice 2 1 (236/1000) < 2 := by
  refine (exact_prices_strictly_bounded 2 1 (by norm_num)).1 (236/1000) ?_
  simp [RETRACEMENT_LEVELS]

/-- C5: whenever either swing bound is still undefined after derivation
(no override and the column is absent or aggregates to NaN), the calculator
returns the empty level set, for every method. -/
theorem undefined_bounds_empty (data : DataFrame) (method : String)
    (swing_high swing_low : Option ℚ)
    (hund : deriveBound swing_high data.high data.malformed seriesMax = .ok none ∨
            deriveBound swing_low data.low data.malformed seriesMin = .ok none) :
    calculate_fibonacci_levels data method swing_high swing_low = [] := by
  unfold calculate_fibonacci_levels calcFibBody
  rcases hund with hh | hl
  · rw [hh]
    cases hsl : deriveBound swing_low data.low data.malformed seriesMin with
    | error e => rfl
    | ok v => cases v <;> rfl
  · cases hsh : deriveBound swing_high data.high data.malformed seriesMax with
    | error e => rfl
    | ok v => rw [hl]; cases v <;> rfl

theorem undefined_bounds_empty_witness :
    calculate_fibonacci_levels emptyFrame "retracement" none none = [] :=
  undefined_bounds_empty emptyFrame "retracement" none none (Or.inl rfl)

lemma connectGo_length_le (s : ℕ → Bool) (l : List ℕ) :
    (connectGo s l).attempts.length ≤ l.length := by
  induction l with
  | nil => simp [connectGo]
  | cons a rest ih =>
    simp only [connectGo]
    by_cases hs : s a
    · simp [hs]
    · simp only [hs, Bool.false_eq_true, if_false, List.length_cons]
      omega

lemma connectGo_sleeps (s : ℕ → Bool) (l : List ℕ) :
    (connectGo s l).sleeps =
      List.replicate ((connectGo s l).attempts.countP (fun a => !(s a)))
        rabbitRetryDelay := by
  induction l with
  | nil => simp [connectGo]
  | cons a rest ih =>
    simp only [connectGo]
    by_cases hs : s a
    · simp [hs, List.countP_cons]
    · simp only [hs, Bool.false_eq_true, if_false, List.countP_cons]
      simp [hs, ih, List.replicate_succ]

lemma connectGo_connected (s : ℕ → Bool) (l : List ℕ) :
    (connectGo s l).connected = l.any s := by
  induction l with
  | nil => simp [connectGo]
  | cons a rest ih =>
    simp only [connectGo, List.any_cons]
    by_cases hs : s a
    · simp [hs]
    · simp [hs, ih]

lemma connectGo_raised (s : ℕ → Bool) (l : List ℕ) :
    (connectGo s l).raised = !(connectGo s l).connected := by
  induction l with
  | nil => simp [connectGo]
  | cons a rest ih =>
    simp only [connectGo]
    by_cases hs : s a
    · simp [hs]
    · simp [hs, ih]

lemma connectGo_attempts_all_fail (s : ℕ → Bool) (l : List ℕ)
    (hf : ∀ a ∈ l, s a = false) : (connectGo s l).attempts = l := by
  induction l with
  | nil => simp [connectGo]
  | cons a rest ih =>
    have ha : s a = false := hf a (List.mem_cons_self a rest)
    simp only [connectGo, ha, Bool.false_eq_true, if_false]
    exact congrArg (a :: ·) (ih fun b hb => hf b (List.mem_cons_of_mem a hb))

lemma connectGo_dropLast_fail (s : ℕ → Bool) (l : List ℕ) :
    ∀ a ∈ (connectGo s l).attempts.dropLast, s a = false := by
  induction l with
  | nil => simp [connectGo]
  | cons a rest ih =>
    simp only [connectGo]
    by_cases hs : s a
    · simp [hs]
    · simp only [hs, Bool.false_eq_true, if_false]
      cases htl : (connectGo s rest).attempts with
      | nil => simp
      | cons b tl =>
        rw [List.dropLast_cons₂]
        intro x hx
        rcases List.mem_cons.1 hx with rfl | hx2
        · exact eq_false_of_ne_true hs
        · exact ih x (by rw [htl]; exact hx2)

/-- C6: the connection routine makes at most 5 attempts, sleeps the fixed
delay of 5 after each failed attempt, raises `ConnectionError` when all 5
attempts fail, and when some attempt in range succeeds it returns with the
connection open (without raising), every attempt before the returning one
having failed. -/
theorem connect_retry_spec (succeeds : ℕ → Bool) :
    (connect_to_rabbitmq succeeds).attempts.length ≤ rabbitRetries ∧
    (connect_to_rabbitmq succeeds).sleeps =
      List.replicate
        ((connect_to_rabbitmq succeeds).attempts.countP (fun a => !(succeeds a)))
        rabbitRetryDelay ∧
    ((∀ a, 1 ≤ a → a ≤ rabbitRetries → succeeds a = false) →
      (connect_to_rabbitmq succeeds).raised = true ∧
      (connect_to_rabbitmq succeeds).connected = false ∧
      (connect_to_rabbitmq succeeds).attempts.length = rabbitRetries) ∧
    ((∃ a, 1 ≤ a ∧ a ≤ rabbitRetries ∧ succeeds a = true) →
      (connect_to_rabbitmq succeeds).connected = true ∧
      (connect_to_rabbitmq succeeds).raised = false) ∧
    (∀ a ∈ (connect_to_rabbitmq succeeds).attempts.dropLast, succeeds a = false) := by
  have hrange : List.range' 1 rabbitRetries = [1, 2, 3, 4, 5] := rfl
  have hconn : connect_to_rabbitmq succeeds = connectGo succeeds [1, 2, 3, 4, 5] := by
    rw [connect_to_rabbitmq, hrange]
  rw [hconn]
  refine ⟨?_, connectGo_sleeps succeeds _, ?_, ?_, connectGo_dropLast_fail succeeds _⟩
  · exact le_trans (connectGo_length_le succeeds _) (by norm_num [rabbitRetries])
  · intro hf
    have hf2 : ∀ a ∈ [1, 2, 3, 4, 5], succeeds a = false := by
      intro a ha
      simp only [List.mem_cons, List.not_mem_nil, or_false] at ha
      rcases ha with rfl | rfl | rfl | rfl | rfl <;>
        exact hf _ (by norm_num) (by norm_num [rabbitRetries])
    have hc : (connectGo succeeds [1, 2, 3, 4, 5]).connected = false := by
      rw [connectGo_connected]
      exact List.any_eq_false.mpr fun a ha => by simp [hf2 a ha]
    refine ⟨?_, hc, ?_⟩
    · rw [connectGo_raised, hc]
      rfl
    · rw [connectGo_attempts_all_fail succeeds _ hf2]
      rfl
  · rintro ⟨a, h1, h5, hs⟩
    unfold rabbitRetries at h5
    have hmem : a ∈ [1, 2, 3, 4, 5] := by
      simp only [List.mem_cons, List.not_mem_nil, or_false]
      omega
    have hc : (connectGo succeeds [1, 2, 3, 4, 5]).connected = true := by
      rw [connectGo_connected]
      exact List.any_eq_true.mpr ⟨a, hmem, hs⟩
    refine ⟨hc, ?_⟩
    rw [connectGo_raised, hc]
    rfl

theorem connect_retry_spec_witness :
    ((connect_to_rabbitmq (fun _ => false)).raised = true ∧
     (connect_to_rabbitmq (fun _ => false)).connected = false ∧
     (connect_to_rabbitmq (fun _ => false)).attempts.length = rabbitRetries) ∧
    ((connect_to_rabbitmq (fun a => a == 3)).connected = true ∧
     (connect_to_rabbitmq (fun a => a == 3)).raised = false) :=
  ⟨(connect_retry_spec (fun _ => false)).2.2.1 (fun _ _ _ => rfl),
   (connect_retry_spec (fun a => a == 3)).2.2.2.1 ⟨3, by norm_num, by norm_num [rabbitRetries], rfl⟩⟩

/-- C7: for both backend variants, `send_message` re-raises a failure of the
underlying publish/send call and returns normally when it succeeds — its
outcome is exactly the underlying call's outcome. -/
theorem send_message_propagates (queue_type : String)
    (callOutcome : Except String Unit)
    (hqt : queue_type = "rabbitmq" ∨ queue_type = "sqs") :
    send_message queue_type callOutcome = callOutcome := by
  rcases hqt with rfl | rfl <;>
    (cases callOutcome with
     | ok u => cases u; rfl
     | error e => rfl)

theorem send_message_propagates_witness :
    send_message "rabbitmq" (Except.error "publish failed") =
      Except.error "publish failed" ∧
    send_message "sqs" (Except.ok ()) = Except.ok () :=
  ⟨send_message_propagates "rabbitmq" (Except.error "publish failed") (Or.inl rfl),
   send_message_propagates "sqs" (Except.ok ()) (Or.inr rfl)⟩

/-- C8: `close` is idempotent and total: it is a no-op on a sender whose
connection was never opened or is already closed, and applying it twice
leaves the state exactly as applying it once. -/
theorem close_idempotent_noop (s : SenderState) :
    close (close s) = close s ∧
    (s.connection = none → close s = s) ∧
    (∀ c, s.connection = some c → c.is_open = false → close s = s) := by
  obtain ⟨conn⟩ := s
  cases conn with
  | none => exact ⟨rfl, fun _ => rfl, fun c hc _ => Option.noConfusion hc⟩
  | some c =>
    obtain ⟨b⟩ := c
    cases b with
    | false => exact ⟨rfl, fun hc => Option.noConfusion hc, fun c _ _ => rfl⟩
    | true =>
      refine ⟨rfl, fun hc => Option.noConfusion hc, fun c hc hb => ?_⟩
      injection hc with h2
      rw [← h2] at hb
      exact Bool.noConfusion hb

theorem close_idempotent_noop_witness :
    close (close ⟨some ⟨true⟩⟩) = close ⟨some ⟨true⟩⟩ ∧
    close (⟨none⟩ : SenderState) = ⟨none⟩ ∧
    close ⟨some ⟨false⟩⟩ = ⟨some ⟨false⟩⟩ :=
  ⟨(close_idempotent_noop ⟨some ⟨true⟩⟩).1,
   (close_idempotent_noop ⟨none⟩).2.1 rfl,
   (close_idempotent_noop ⟨some ⟨false⟩⟩).2.2 ⟨false⟩ rfl rfl⟩

/-- C9: the calculator is total — it always returns a dictionary; an
exception raised inside the body is absorbed by the handler (which returns
the empty dictionary), and a method other than `"retracement"` or
`"extension"` yields the empty dictionary. -/
theorem calculator_never_raises (data : DataFrame) (method : String)
    (swing_high swing_low : Option ℚ) :
    (∃ levels : List (String × ℚ),
      calculate_fibonacci_levels data method swing_high swing_low = levels) ∧
    (∀ e, calcFibBody data method swing_high swing_low = .error e →
      calculate_fibonacci_levels data method swing_high swing_low = []) ∧
    (method ≠ "retracement" → method ≠ "extension" →
      calculate_fibonacci_levels data method swing_high swing_low = []) := by
  refine ⟨⟨_, rfl⟩, ?_, ?_⟩
  · intro e he
    unfold calculate_fibonacci_levels
    rw [he]
  · intro h1 h2
    unfold calculate_fibonacci_levels calcFibBody
    cases hsh : deriveBound swing_high data.high data.malformed seriesMax with
    | error e => rfl
    | ok v =>
      cases hsl : deriveBound swing_low data.low data.malformed seriesMin with
      | error e => cases v <;> rfl
      | ok w =>
        cases v with
        | none => cases w <;> rfl
        | some hv =>
          cases w with
          | none => rfl
          | some lv =>
            simp only [h1, h2, if_false]
            rfl

theorem calculator_never_raises_witness :
    calculate_fibonacci_levels emptyFrame "bogus" (some 1) (some 0) = [] :=
  (calculator_never_raises emptyFrame "bogus" (some 1) (some 0)).2.2
    (by decide) (by decide)

end StockTechFib
